import Mathlib

/-!
Verification model of `src/binance.py` (class `BinanceAPI`), a thin client
for the Binance REST API.  The Python code is shallowly embedded: bytes are
`Nat` (< 256), machine words are `Nat` reduced modulo `2^32`, JSON values are
an inductive type, and HTTP traffic is modelled by an oracle `Nat → Json`
giving the response to the n-th HTTP request issued, together with an
explicit trace of the requests made.
-/

namespace Binance

/-! ### SHA-256 over byte lists (bytes are `Nat` < 256) -/

/-- Reduce to a 32-bit word. -/
def w32 (n : Nat) : Nat := n % 4294967296

/-- Right rotation of a 32-bit word. -/
def rotr32 (k x : Nat) : Nat := w32 ((x >>> k) ||| (x <<< (32 - k)))

def bsig0 (x : Nat) : Nat := rotr32 2 x ^^^ rotr32 13 x ^^^ rotr32 22 x

def bsig1 (x : Nat) : Nat := rotr32 6 x ^^^ rotr32 11 x ^^^ rotr32 25 x

def ssig0 (x : Nat) : Nat := rotr32 7 x ^^^ rotr32 18 x ^^^ (x >>> 3)

def ssig1 (x : Nat) : Nat := rotr32 17 x ^^^ rotr32 19 x ^^^ (x >>> 10)

def ch32 (x y z : Nat) : Nat := (x &&& y) ^^^ ((x ^^^ 4294967295) &&& z)

def maj32 (x y z : Nat) : Nat := (x &&& y) ^^^ (x &&& z) ^^^ (y &&& z)

/-- The 64 SHA-256 round constants. -/
def sha256K : List Nat :=
  [1116352408, 1899447441, 3049323471, 3921009573, 961987163,
   1508970993, 2453635748, 2870763221, 3624381080, 310598401,
   607225278, 1426881987, 1925078388, 2162078206, 2614888103,
   3248222580, 3835390401, 4022224774, 264347078, 604807628,
   770255983, 1249150122, 1555081692, 1996064986, 2554220882,
   2821834349, 2952996808, 3210313671, 3336571891, 3584528711,
   113926993, 338241895, 666307205, 773529912, 1294757372,
   1396182291, 1695183700, 1986661051, 2177026350, 2456956037,
   2730485921, 2820302411, 3259730800, 3345764771, 3516065817,
   3600352804, 4094571909, 275423344, 430227734, 506948616,
   659060556, 883997877, 958139571, 1322822218, 1537002063,
   1747873779, 1955562222, 2024104815, 2227730452, 2361852424,
   2428436474, 2756734187, 3204031479, 3329325298]

/-- The initial SHA-256 hash state. -/
def sha256H0 : List Nat :=
  [1779033703, 3144134277, 1013904242, 2773480762,
   1359893119, 2600822924, 528734635, 1541459225]

/-- Big-endian rendering of `n` on `k` bytes. -/
def beBytes (k n : Nat) : List Nat :=
  (List.range k).map (fun i => (n >>> (8 * (k - 1 - i))) % 256)

/-- Structural worker for `chunksOf`: the fuel bounds the number of chunks. -/
def chunksOfAux (k : Nat) : Nat → List α → List (List α)
  | 0, _ => []
  | _ + 1, [] => []
  | fuel + 1, x :: xs => (x :: xs).take k :: chunksOfAux k fuel ((x :: xs).drop k)

/-- Split a list into chunks of `k` elements (last chunk possibly shorter). -/
def chunksOf (k : Nat) (l : List α) : List (List α) :=
  if k = 0 then [] else chunksOfAux k l.length l

/-- SHA-256 padding: append `0x80`, zeros, then the bit length on 8 bytes. -/
def sha256Pad (msg : List Nat) : List Nat :=
  let L := msg.length
  msg ++ [128] ++ List.replicate ((119 - L % 64) % 64) 0 ++ beBytes 8 (8 * L)

/-- Pack a 4-byte big-endian chunk into one word. -/
def bytesToWords (bs : List Nat) : List Nat :=
  (chunksOf 4 bs).map (fun c => c.foldl (fun a b => a * 256 + b) 0)

/-- One step of the SHA-256 message-schedule extension. -/
def scheduleStep (ws : List Nat) : List Nat :=
  let n := ws.length
  ws ++ [w32 (ssig1 (ws.getD (n - 2) 0) + ws.getD (n - 7) 0 +
              ssig0 (ws.getD (n - 15) 0) + ws.getD (n - 16) 0)]

/-- Extend 16 schedule words to 64. -/
def sha256Schedule (w16 : List Nat) : List Nat := Nat.iterate scheduleStep 48 w16

/-- One SHA-256 compression round; the state is `[a,b,c,d,e,f,g,h]`. -/
def sha256Round (st : List Nat) (kw : Nat × Nat) : List Nat :=
  match st with
  | [a, b, c, d, e, f, g, h] =>
    let t1 := w32 (h + bsig1 e + ch32 e f g + kw.1 + kw.2)
    let t2 := w32 (bsig0 a + maj32 a b c)
    [w32 (t1 + t2), a, b, c, w32 (d + t1), e, f, g]
  | _ => st

/-- Process one 64-byte block. -/
def sha256Compress (h0 : List Nat) (block : List Nat) : List Nat :=
  let ws := sha256Schedule (bytesToWords block)
  let f := (List.zip sha256K ws).foldl sha256Round h0
  List.zipWith (fun a b => w32 (a + b)) h0 f

/-- SHA-256 digest of a byte list, as 32 bytes. -/
def sha256 (msg : List Nat) : List Nat :=
  ((chunksOf 64 (sha256Pad msg)).foldl sha256Compress sha256H0).flatMap (beBytes 4)

/-- Lowercase hexadecimal digit. -/
def hexDigit (n : Nat) : Char := if n < 10 then Char.ofNat (48 + n) else Char.ofNat (87 + n)

/-- Lowercase hexadecimal rendering of a byte list (Python `hexdigest`). -/
def bytesToHex (bs : List Nat) : String :=
  String.join (bs.map (fun b => String.mk [hexDigit (b / 16), hexDigit (b % 16)]))

/-- HMAC-SHA256 (RFC 2104) of `msg` under `key`, as 32 bytes. -/
def hmacSha256 (key msg : List Nat) : List Nat :=
  let k0 := if key.length > 64 then sha256 key else key
  let kp := k0 ++ List.replicate (64 - k0.length) 0
  sha256 ((kp.map (fun b => b ^^^ 92)) ++ sha256 ((kp.map (fun b => b ^^^ 54)) ++ msg))

/-! ### Strings, UTF-8 and Python `urllib.parse.urlencode` -/

/-- UTF-8 encoding of one character, as bytes. -/
def utf8EncodeChar (c : Char) : List Nat :=
  let n := c.toNat
  if n < 128 then [n]
  else if n < 2048 then [192 ||| (n >>> 6), 128 ||| (n &&& 63)]
  else if n < 65536 then
    [224 ||| (n >>> 12), 128 ||| ((n >>> 6) &&& 63), 128 ||| (n &&& 63)]
  else
    [240 ||| (n >>> 18), 128 ||| ((n >>> 12) &&& 63),
     128 ||| ((n >>> 6) &&& 63), 128 ||| (n &&& 63)]

/-- UTF-8 encoding of a string (Python `s.encode("utf-8")`). -/
def strToBytes (s : String) : List Nat := s.data.flatMap utf8EncodeChar

/-- The characters `urllib.parse.quote` never escapes
(ASCII letters, digits, `_`, `.`, `-`, `~`). -/
def isAlwaysSafe (b : Nat) : Bool :=
  (65 ≤ b && b ≤ 90) || (97 ≤ b && b ≤ 122) || (48 ≤ b && b ≤ 57) ||
  b == 95 || b == 46 || b == 45 || b == 126

/-- Uppercase hexadecimal digit (used by percent-escapes). -/
def hexDigitUpper (n : Nat) : Char :=
  if n < 10 then Char.ofNat (48 + n) else Char.ofNat (55 + n)

/-- Python `urllib.parse.quote_plus` with an empty `safe` set (the quoting `urlencode`
applies to each key and value): UTF-8 encode, map space to `+`, keep the
always-safe bytes, percent-escape the rest with uppercase hex. -/
def quotePlus (s : String) : String :=
  String.join ((strToBytes s).map (fun b =>
    if b == 32 then "+"
    else if isAlwaysSafe b then String.singleton (Char.ofNat b)
    else String.mk [Char.ofNat 37, hexDigitUpper (b / 16), hexDigitUpper (b % 16)]))

/-- Python tuple ordering `(k1,v1) <= (k2,v2)` on pairs of strings
(the Lean `String` order is by code points, as is the Python order). -/
def pairLe (a b : String × String) : Bool :=
  decide (a.1 < b.1 ∨ (a.1 = b.1 ∧ a.2 ≤ b.2))

/-- Python `sorted(params.items())`: the item pairs in ascending tuple order. -/
def pySorted (l : List (String × String)) : List (String × String) :=
  l.mergeSort pairLe

/-- Python `urllib.parse.urlencode` on a list of string pairs:
`quote_plus(k) ++ "=" ++ quote_plus(v)` joined by `&`. -/
def urlencodePy (l : List (String × String)) : String :=
  String.intercalate "&" (l.map (fun p => quotePlus p.1 ++ "=" ++ quotePlus p.2))

/-! ### JSON values and Python dynamic operations -/

/-- Parsed JSON as produced by `resp.json()`.  Numeric literals in scope
(server times, trade counts) are integers. -/
inductive Json where
  | null : Json
  | bool (b : Bool) : Json
  | num (n : Int) : Json
  | str (s : String) : Json
  | arr (elems : List Json) : Json
  | obj (fields : List (String × Json)) : Json
deriving Repr

mutual

/-- Structural equality of JSON values (Python `==` on parsed values). -/
def beqJson : Json → Json → Bool
  | .null, .null => true
  | .bool a, .bool b => a == b
  | .num a, .num b => a == b
  | .str a, .str b => a == b
  | .arr a, .arr b => beqJsonList a b
  | .obj a, .obj b => beqJsonFields a b
  | _, _ => false

def beqJsonList : List Json → List Json → Bool
  | [], [] => true
  | x :: xs, y :: ys => beqJson x y && beqJsonList xs ys
  | _, _ => false

def beqJsonFields : List (String × Json) → List (String × Json) → Bool
  | [], [] => true
  | (k1, v1) :: xs, (k2, v2) :: ys => k1 == k2 && beqJson v1 v2 && beqJsonFields xs ys
  | _, _ => false

end

instance : BEq Json := ⟨beqJson⟩

/-- Python exceptions raised by the embedded code. -/
inductive PyErr where
  | valueError (msg : String)
  | keyError (key : String)
  | indexError (msg : String)
  | typeError (msg : String)
  | attrError (msg : String)
deriving DecidableEq, Repr

/-- A single apostrophe, as used by Python `repr` of strings. -/
def sq : String := String.singleton (Char.ofNat 39)

mutual

/-- Python `repr` of a parsed-JSON value (string escaping elided; no string
in scope contains a quote). -/
def reprJson : Json → String
  | .null => "None"
  | .bool true => "True"
  | .bool false => "False"
  | .num n => toString n
  | .str s => sq ++ s ++ sq
  | .arr l => "[" ++ String.intercalate ", " (reprJsonList l) ++ "]"
  | .obj fields => "\x7b" ++ String.intercalate ", " (reprJsonFields fields) ++ "\x7d"

def reprJsonList : List Json → List String
  | [] => []
  | x :: xs => reprJson x :: reprJsonList xs

def reprJsonFields : List (String × Json) → List String
  | [] => []
  | (k, v) :: xs => (sq ++ k ++ sq ++ ": " ++ reprJson v) :: reprJsonFields xs

end

/-- Python `str` / `"{}".format` of a parsed-JSON value. -/
def pyFormat (j : Json) : String :=
  match j with
  | .str s => s
  | j => reprJson j

/-- Dictionary field lookup (`j[k]` without the raise; `none` if absent
or not a dict). -/
def Json.lookup (j : Json) (k : String) : Option Json :=
  match j with
  | .obj fields => (fields.find? (fun p => p.1 == k)).map Prod.snd
  | _ => none

/-- Lookup `j.lookup k` with `null` default, used only under a membership guard. -/
def Json.lookupD (j : Json) (k : String) : Json := (j.lookup k).getD .null

/-- Is `needle` a contiguous substring of `hay` (Python `in` on strings)? -/
def substrCheck (needle hay : String) : Bool :=
  hay.data.tails.any (fun t => needle.data.isPrefixOf t)

/-- Python `k in j` for a string `k`: key membership for dicts, element
membership for lists, substring for strings. -/
def Json.member (j : Json) (k : String) : Bool :=
  match j with
  | .obj fields => fields.any (fun p => p.1 == k)
  | .arr elems => elems.any (fun e => e == .str k)
  | .str s => substrCheck k s
  | _ => false

/-- Python `j[i]` for an integer index. -/
def Json.index (j : Json) (i : Nat) : Except PyErr Json :=
  match j with
  | .arr l =>
    match l.get? i with
    | some v => .ok v
    | none => .error (.indexError "list index out of range")
  | .str s =>
    match s.data.get? i with
    | some c => .ok (.str (String.singleton c))
    | none => .error (.indexError "string index out of range")
  | _ => .error (.typeError "object is not subscriptable")

/-- Python `j[k]` for a string key on a dict. -/
def Json.getItem (j : Json) (k : String) : Except PyErr Json :=
  match j with
  | .obj _ =>
    match j.lookup k with
    | some v => .ok v
    | none => .error (.keyError k)
  | _ => .error (.typeError "object is not subscriptable")

/-- Python iteration `for d in j`. -/
def pyIter : Json → Except PyErr (List Json)
  | .arr l => .ok l
  | .obj fields => .ok (fields.map (fun p => .str p.1))
  | .str s => .ok (s.data.map (fun c => .str (String.singleton c)))
  | _ => .error (.typeError "object is not iterable")

/-- Python `d[k] = v` on a string-keyed dict: replace in place or append. -/
def dictSet (m : List (String × α)) (k : String) (v : α) : List (String × α) :=
  if m.any (fun p => p.1 == k) then m.map (fun p => if p.1 == k then (k, v) else p)
  else m ++ [(k, v)]

/-- Python `m.update(kvs)`. -/
def dictUpdate (m : List (String × α)) (kvs : List (String × α)) : List (String × α) :=
  kvs.foldl (fun acc p => dictSet acc p.1 p.2) m

/-- Python `d[k] = v` for a dict keyed by arbitrary (hashable) values, as built by a
dict comprehension: first occurrence fixes the position, later ones overwrite. -/
def jdictSet (m : List (Json × α)) (k : Json) (v : α) : List (Json × α) :=
  if m.any (fun p => p.1 == k) then m.map (fun p => if p.1 == k then (k, v) else p)
  else m ++ [(k, v)]

/-! ### The `BinanceAPI` class -/

/-- The external `BINANCE_SETTINGS` configuration (`config.settings`),
read by `__init__` and by the URL-building code at call time. -/
structure Settings where
  key : String
  secret : String
  endpoint : String
deriving DecidableEq, Repr

/-- One HTTP request as handed to `requests.request`: for unsigned calls the
parameters ride in `params`; for signed calls they are baked into `url` and
the API key rides in `headers`. -/
structure HttpCall where
  method : String
  url : String
  params : List (String × String)
  headers : List (String × String)
deriving DecidableEq, Repr

/-- The observable outcome of running one Python method: its return value or
raised exception, the HTTP requests it issued (in order), the messages it
logged via `logging.error`, and the next HTTP-request index. -/
structure RunResult (α : Type) where
  result : Except PyErr α
  calls : List HttpCall
  logs : List String
  next : Nat
deriving Repr

/-- The class-level mutable state of `BinanceAPI`: `options` is a class
attribute (one dict shared by every instance), so each `__init__` writes
into the same store. -/
structure ClassState where
  options : List (String × String)
deriving DecidableEq, Repr

/-- The class body `options = {}`. -/
def initState : ClassState := ⟨[]⟩

/-- Constructor `__init__`: writes `BINANCE_SETTINGS["key"]` and `BINANCE_SETTINGS["secret"]`
into the shared `options` dict. -/
def construct (bs : Settings) (st : ClassState) : ClassState :=
  ⟨dictSet (dictSet st.options "apiKey" bs.key) "secret" bs.secret⟩

/-- Association lookup in the `options` dict. -/
def optGet (options : List (String × String)) (k : String) : Option String :=
  (options.find? (fun p => p.1 == k)).map Prod.snd

/-- Read `options[k]`, used only after a membership check. -/
def optGetD (options : List (String × String)) (k : String) : String :=
  (optGet options k).getD ""

/-- A Python value as passed to `formatNumber`: floats are modelled as exact
dyadic rationals `m * 2^e` (every finite IEEE double other than `-0.0` is
one, and CPython formats from the exact binary value). -/
inductive PyVal where
  | float (m : Int) (e : Int) : PyVal
  | int (n : Int) : PyVal
  | bool (b : Bool) : PyVal
  | str (s : String) : PyVal
deriving DecidableEq, Repr

/-- Round `num / den` to the nearest integer, ties to even
(the rounding `"{:.8f}".format` applies to the exact binary value). -/
def roundHalfEven (num den : Nat) : Nat :=
  let q := num / den
  let r := num % den
  if 2 * r < den then q
  else if 2 * r > den then q + 1
  else if q % 2 = 0 then q else q + 1

/-- Value `|m * 2^e| * 10^8`, rounded half-to-even to an integer. -/
def scaledAbs (m e : Int) : Nat :=
  if 0 ≤ e then m.natAbs * 100000000 * 2 ^ e.toNat
  else roundHalfEven (m.natAbs * 100000000) (2 ^ (-e).toNat)

/-- Python `"{:.8f}".format(x)` for the double `x = m * 2^e`: optional sign, integer
part, point, exactly eight fraction digits. -/
def formatFixed8 (m e : Int) : String :=
  let n := scaledAbs m e
  (if m < 0 then "-" else "") ++ Nat.repr (n / 100000000) ++ "." ++
    String.mk ((List.range 8).map (fun i => Char.ofNat (48 + n % 100000000 / 10 ^ (7 - i) % 10)))

/-- Method `BinanceAPI.formatNumber`: 8-decimal fixed-point for floats, `str(x)`
for everything else. -/
def formatNumber : PyVal → String
  | .float m e => formatFixed8 m e
  | .int n => toString n
  | .bool true => "True"
  | .bool false => "False"
  | .str s => s

/-- Method `BinanceAPI.request`: one HTTP call; parse; log `data["msg"]` when the
body has a `msg` member; return the body unchanged. -/
def request (bs : Settings) (oracle : Nat → Json) (n : Nat)
    (method path : String) (params : List (String × String)) : RunResult Json :=
  let call : HttpCall := ⟨method, bs.endpoint ++ path, params, []⟩
  let data := oracle n
  { result := .ok data
    calls := [call]
    logs := if data.member "msg" then [pyFormat (data.lookupD "msg")] else []
    next := n + 1 }

/-- Method `BinanceAPI.serverTime`: direct `GET /api/v3/time`, then `data["serverTime"]`
(KeyError when the field is absent). -/
def serverTime (bs : Settings) (oracle : Nat → Json) (n : Nat) : RunResult Json :=
  let call : HttpCall := ⟨"GET", bs.endpoint ++ "/api/v3/time", [], []⟩
  let data := oracle n
  match data.lookup "serverTime" with
  | some v => { result := .ok v, calls := [call], logs := [], next := n + 1 }
  | none => { result := .error (.keyError "serverTime"), calls := [call], logs := [], next := n + 1 }

/-- Method `BinanceAPI.signedRequest`: credential check, fresh server time, sorted
url-encoded query, `&timestamp=`, HMAC-SHA256 signature over the accumulated
query, `&signature=`, then the HTTP call with the key as a header. -/
def signedRequest (bs : Settings) (options : List (String × String)) (oracle : Nat → Json)
    (n : Nat) (method path : String) (params : List (String × String)) : RunResult Json :=
  if (optGet options "apiKey").isNone || (optGet options "secret").isNone then
    { result := .error (.valueError "Api key and secret must be set")
      calls := [], logs := [], next := n }
  else
    let st := serverTime bs oracle n
    match st.result with
    | .error e => { result := .error e, calls := st.calls, logs := st.logs, next := st.next }
    | .ok ts =>
      let query := urlencodePy (pySorted params)
      let query := query ++ "&timestamp=" ++ pyFormat ts
      let secret := strToBytes (optGetD options "secret")
      let signature := bytesToHex (hmacSha256 secret (strToBytes query))
      let query := query ++ "&signature=" ++ signature
      let call : HttpCall := ⟨method, bs.endpoint ++ path ++ "?" ++ query, [],
                              [("X-MBX-APIKEY", optGetD options "apiKey")]⟩
      let data := oracle st.next
      { result := .ok data
        calls := st.calls ++ [call]
        logs := st.logs ++ (if data.member "msg" then [pyFormat (data.lookupD "msg")] else [])
        next := st.next + 1 }

/-- One row of the `klines` comprehension: `d[0] .. d[8]` repacked into a
dict, in the field order of the source. -/
def klineOfRow (d : Json) : Except PyErr Json := do
  let t0 ← d.index 0
  let t1 ← d.index 1
  let t2 ← d.index 2
  let t3 ← d.index 3
  let t4 ← d.index 4
  let t5 ← d.index 5
  let t6 ← d.index 6
  let t7 ← d.index 7
  let t8 ← d.index 8
  pure (.obj [("openTime", t0), ("open", t1), ("high", t2), ("low", t3),
              ("close", t4), ("volume", t5), ("closeTime", t6),
              ("quoteVolume", t7), ("numTrades", t8)])

/-- Method `BinanceAPI.klines`: unsigned GET of `/api/v1/klines`, then the row
comprehension. -/
def klines (bs : Settings) (oracle : Nat → Json) (n : Nat)
    (symbol interval : String) (kwargs : List (String × String)) : RunResult Json :=
  let params := dictUpdate [("symbol", symbol), ("interval", interval)] kwargs
  let r := request bs oracle n "GET" "/api/v1/klines" params
  match r.result with
  | .error e => { r with result := .error e }
  | .ok data =>
    match pyIter data with
    | .error e => { r with result := .error e }
    | .ok rows =>
      match rows.mapM klineOfRow with
      | .error e => { r with result := .error e }
      | .ok out => { r with result := .ok (.arr out) }

/-- One row of the `balances` comprehension: key `d["asset"]`, value the dict
`\x7b"free": d["free"], "locked": d["locked"]\x7d`. -/
def balanceOfRow (d : Json) : Except PyErr (Json × Json) := do
  let asset ← d.getItem "asset"
  let free ← d.getItem "free"
  let locked ← d.getItem "locked"
  pure (asset, .obj [("free", free), ("locked", locked)])

/-- Method `BinanceAPI.balances`: signed GET of `/api/v3/account`; raise on a `msg`
member; otherwise the comprehension over `data.get("balances", [])`, as an
asset-keyed dict. -/
def balances (bs : Settings) (options : List (String × String)) (oracle : Nat → Json)
    (n : Nat) : RunResult (List (Json × Json)) :=
  let r := signedRequest bs options oracle n "GET" "/api/v3/account" []
  match r.result with
  | .error e => { result := .error e, calls := r.calls, logs := r.logs, next := r.next }
  | .ok data =>
    if data.member "msg" then
      { result := .error (.valueError ("Error from exchange: " ++ pyFormat (data.lookupD "msg")))
        calls := r.calls, logs := r.logs, next := r.next }
    else
      match data with
      | .obj fields =>
        (match (Json.obj fields).lookup "balances" with
         | some balsJ =>
           (match pyIter balsJ with
            | .error e => { result := .error e, calls := r.calls, logs := r.logs, next := r.next }
            | .ok ds =>
              (match ds.mapM balanceOfRow with
               | .error e => { result := .error e, calls := r.calls, logs := r.logs, next := r.next }
               | .ok entries =>
                 { result := .ok (entries.foldl (fun acc p => jdictSet acc p.1 p.2) [])
                   calls := r.calls, logs := r.logs, next := r.next }))
         | none =>
           { result := .ok [], calls := r.calls, logs := r.logs, next := r.next })
      | _ =>
        { result := .error (.attrError "object has no attribute get")
          calls := r.calls, logs := r.logs, next := r.next }

/-! ### Spec-side definitions (stated from the words of the specification, for
refinement against the code-side definitions above) -/

/-- The signed query string as the specification words it: the URL-encoding
of the parameter pairs sorted lexicographically by key, then
`&timestamp=<timestamp>`, then `&signature=<hex>` where `<hex>` is the
lowercase hex digest of HMAC-SHA256 keyed by the secret over exactly the
preceding accumulated string. -/
def specSignedQuery (secret : String) (params : List (String × String)) (ts : Int) : String :=
  let pre := urlencodePy (params.mergeSort (fun a b => decide (a.1 ≤ b.1)))
             ++ "&timestamp=" ++ toString ts
  pre ++ "&signature=" ++ bytesToHex (hmacSha256 (strToBytes secret) (strToBytes pre))

/-! ### Helper lemmas -/

/-- Characters strictly after the last `.` of a string. -/
def fracDigits (s : String) : List Char :=
  (s.data.reverse.takeWhile (fun c => !(c == Char.ofNat 46))).reverse

/-- The query string `signedRequest` signs and transmits, as the code builds
it (for stating its unfolding). -/
def fullQuery (sec : String) (params : List (String × String)) (tsj : Json) : String :=
  let pre := urlencodePy (pySorted params) ++ "&timestamp=" ++ pyFormat tsj
  pre ++ "&signature=" ++ bytesToHex (hmacSha256 (strToBytes sec) (strToBytes pre))

/-- The server-time request issued at the start of every signed request. -/
def timeCall (bs : Settings) : HttpCall := ⟨"GET", bs.endpoint ++ "/api/v3/time", [], []⟩

/-- A kline row repacked as the comprehension in the source does, positionally. -/
def mkKline (r : List Json) : Json :=
  .obj [("openTime", r.getD 0 .null), ("open", r.getD 1 .null), ("high", r.getD 2 .null),
        ("low", r.getD 3 .null), ("close", r.getD 4 .null), ("volume", r.getD 5 .null),
        ("closeTime", r.getD 6 .null), ("quoteVolume", r.getD 7 .null),
        ("numTrades", r.getD 8 .null)]

/-- Function `mkKline` lifted to `Json` (helper for stating the `mapM` computation). -/
def mkKlineJ : Json → Json
  | .arr r => mkKline r
  | _ => .null

/-- A balances row holding exactly the fields the comprehension reads. -/
def balRowJson (t : Json × Json × Json) : Json :=
  .obj [("asset", t.1), ("free", t.2.1), ("locked", t.2.2)]

theorem takeWhile_append_of_all {p : Char → Bool} (l : List Char) (x : Char) (r : List Char)
    (hl : ∀ c ∈ l, p c = true) (hx : p x = false) :
    (l ++ x :: r).takeWhile p = l := by
  induction l with
  | nil => simp [List.takeWhile, hx]
  | cons a as ih =>
    have ha : p a = true := hl a (List.mem_cons_self a as)
    simp only [List.cons_append, List.takeWhile_cons, ha, if_true]
    rw [ih (fun c hc => hl c (List.mem_cons_of_mem a hc))]

theorem digit_char_props (d : Nat) (hd : d < 10) :
    (Char.ofNat (48 + d)).isDigit = true ∧
      ((Char.ofNat (48 + d)) == Char.ofNat 46) = false := by
  interval_cases d <;> exact ⟨by decide, by decide⟩

/-! ### Claim theorems -/

/-- C3: `formatNumber` renders a float in fixed-point form with exactly eight
digits after the decimal point (all of them digits, with a decimal point
present; e.g. `1.0 ↦ "1.00000000"`), and renders a non-float value via its
default string form (e.g. the integer `5 ↦ "5"`). -/
theorem formatNumber_eight_decimals :
    (∀ m e : Int,
        (fracDigits (formatNumber (.float m e))).length = 8 ∧
        (fracDigits (formatNumber (.float m e))).all (fun c => c.isDigit) = true ∧
        Char.ofNat 46 ∈ (formatNumber (.float m e)).data) ∧
    (∀ n : Int, formatNumber (.int n) = toString n) ∧
    (∀ s : String, formatNumber (.str s) = s) ∧
    formatNumber (.float 1 0) = "1.00000000" ∧
    formatNumber (.int 5) = "5" := by
  refine ⟨?_, fun n => rfl, fun s => rfl, rfl, rfl⟩
  intro m e
  have hmkl : ∀ l : List Char, (String.mk l).data = l := fun l => rfl
  have hdot : (".".data) = [Char.ofNat 46] := rfl
  have hdata : (formatNumber (.float m e)).data =
      ((if m < 0 then "-" else "") ++ Nat.repr (scaledAbs m e / 100000000)).data ++
        Char.ofNat 46 ::
          (List.range 8).map
            (fun i => Char.ofNat (48 + scaledAbs m e % 100000000 / 10 ^ (7 - i) % 10)) := by
    show (formatFixed8 m e).data = _
    simp only [formatFixed8, String.data_append, hmkl, hdot, List.append_assoc,
      List.singleton_append]
  have hmemds : ∀ c ∈ (List.range 8).map
      (fun i => Char.ofNat (48 + scaledAbs m e % 100000000 / 10 ^ (7 - i) % 10)),
      (c == Char.ofNat 46) = false ∧ c.isDigit = true := by
    intro c hc
    rcases List.mem_map.mp hc with ⟨i, _, rfl⟩
    have h10 : scaledAbs m e % 100000000 / 10 ^ (7 - i) % 10 < 10 :=
      Nat.mod_lt _ (by norm_num)
    exact ⟨(digit_char_props _ h10).2, (digit_char_props _ h10).1⟩
  have hfd : fracDigits (formatNumber (.float m e)) =
      (List.range 8).map
        (fun i => Char.ofNat (48 + scaledAbs m e % 100000000 / 10 ^ (7 - i) % 10)) := by
    rw [fracDigits, hdata, List.reverse_append, List.reverse_cons, List.append_assoc,
      List.singleton_append,
      takeWhile_append_of_all _ (Char.ofNat 46) _
        (fun c hc => by simp [(hmemds c (List.mem_reverse.mp hc)).1])
        (by decide),
      List.reverse_reverse]
  refine ⟨by rw [hfd]; simp, ?_, ?_⟩
  · rw [hfd]
    exact List.all_eq_true.mpr (fun c hc => (hmemds c hc).2)
  · rw [hdata]
    exact List.mem_append_right _ (List.mem_cons_self _ _)

/-- C4: with either credential absent from the options store, `signedRequest`
raises `ValueError("Api key and secret must be set")` and performs no HTTP
request at all — in particular not even the server-time fetch. -/
theorem signedRequest_missing_credentials
    (bs : Settings) (options : List (String × String)) (oracle : Nat → Json)
    (n : Nat) (method path : String) (params : List (String × String))
    (h : optGet options "apiKey" = none ∨ optGet options "secret" = none) :
    (signedRequest bs options oracle n method path params).result =
        .error (.valueError "Api key and secret must be set") ∧
    (signedRequest bs options oracle n method path params).calls = [] := by
  rcases h with h | h <;> simp [signedRequest, h]

theorem signedRequest_missing_credentials_witness :
    optGet [] "apiKey" = none ∧
    (signedRequest ⟨"k", "s", "http://x"⟩ [] (fun _ => .null) 0 "GET" "/api/v3/account" []).result =
        .error (.valueError "Api key and secret must be set") ∧
    (signedRequest ⟨"k", "s", "http://x"⟩ [] (fun _ => .null) 0 "GET" "/api/v3/account" []).calls = [] :=
  ⟨rfl, signedRequest_missing_credentials _ _ _ _ _ _ _ (Or.inl rfl)⟩

theorem pairLe_iff (a b : String × String) :
    pairLe a b = true ↔ (a.1 < b.1 ∨ (a.1 = b.1 ∧ a.2 ≤ b.2)) := by
  simp [pairLe]

theorem pairLe_trans (a b c : String × String)
    (h1 : pairLe a b = true) (h2 : pairLe b c = true) : pairLe a c = true := by
  rw [pairLe_iff] at *
  rcases h1 with h1 | ⟨h1e, h1v⟩ <;> rcases h2 with h2 | ⟨h2e, h2v⟩
  · exact Or.inl (lt_trans h1 h2)
  · exact Or.inl (h2e ▸ h1)
  · exact Or.inl (h1e ▸ h2)
  · exact Or.inr ⟨h1e.trans h2e, le_trans h1v h2v⟩

theorem pairLe_total (a b : String × String) : (pairLe a b || pairLe b a) = true := by
  rcases lt_trichotomy a.1 b.1 with h | h | h
  · simp [pairLe_iff, h]
  · rcases le_total a.2 b.2 with hv | hv
    · simp [pairLe_iff, h, hv]
    · simp [pairLe_iff, h.symm, hv]
  · simp [pairLe_iff, h]

theorem pairLe_antisymm (a b : String × String)
    (h1 : pairLe a b = true) (h2 : pairLe b a = true) : a = b := by
  rw [pairLe_iff] at *
  rcases h1 with h1 | ⟨h1e, h1v⟩ <;> rcases h2 with h2 | ⟨h2e, h2v⟩
  · exact absurd h2 (lt_asymm h1)
  · exact absurd (h2e ▸ h1) (lt_irrefl _)
  · exact absurd (h1e ▸ h2) (lt_irrefl _)
  · exact Prod.ext h1e (le_antisymm h1v h2v)

/-- Two item lists holding the same mapping sort identically. -/
theorem pySorted_eq_of_perm {l1 l2 : List (String × String)} (h : l1.Perm l2) :
    pySorted l1 = pySorted l2 := by
  haveI : IsAntisymm (String × String) (fun a b => pairLe a b = true) :=
    ⟨pairLe_antisymm⟩
  exact List.eq_of_perm_of_sorted (r := fun a b => pairLe a b = true)
    ((List.mergeSort_perm l1 pairLe).trans (h.trans (List.mergeSort_perm l2 pairLe).symm))
    (List.sorted_mergeSort (fun a b c => pairLe_trans a b c) pairLe_total l1)
    (List.sorted_mergeSort (fun a b c => pairLe_trans a b c) pairLe_total l2)

/-- Unfolding of a successful `signedRequest`. -/
theorem signedRequest_ok
    (bs : Settings) (options : List (String × String)) (oracle : Nat → Json) (n : Nat)
    (method path : String) (params : List (String × String)) (k sec : String) (tsj : Json)
    (hk : optGet options "apiKey" = some k) (hs : optGet options "secret" = some sec)
    (hts : (oracle n).lookup "serverTime" = some tsj) :
    signedRequest bs options oracle n method path params =
      { result := .ok (oracle (n + 1))
        calls := [timeCall bs,
                  ⟨method, bs.endpoint ++ path ++ "?" ++ fullQuery sec params tsj, [],
                   [("X-MBX-APIKEY", k)]⟩]
        logs := if (oracle (n + 1)).member "msg" then [pyFormat ((oracle (n + 1)).lookupD "msg")]
                else []
        next := n + 1 + 1 } := by
  simp [signedRequest, serverTime, hts, hk, hs, optGetD, fullQuery, timeCall]

/-- Keys with a binding are members. -/
theorem member_of_lookup (fields : List (String × Json)) (k : String) (v : Json)
    (h : (Json.obj fields).lookup k = some v) : (Json.obj fields).member k = true := by
  simp only [Json.lookup, Option.map_eq_some'] at h
  rcases h with ⟨p, hp, _⟩
  rw [List.find?_eq_some] at hp
  rcases hp with ⟨hpk, as, bs, rfl, _⟩
  exact List.any_eq_true.mpr ⟨p, by simp, hpk⟩

theorem lookupD_of_lookup (j : Json) (k : String) (v : Json)
    (h : j.lookup k = some v) : j.lookupD k = v := by
  simp [Json.lookupD, h]

/-- A suffix is a substring (Python `b in a ++ b`). -/
theorem substrCheck_append_right (a b : String) : substrCheck b (a ++ b) = true := by
  refine List.any_eq_true.mpr ⟨b.data, ?_, ?_⟩
  · exact (List.mem_tails _ _).mpr (by rw [String.data_append]; exact ⟨a.data, rfl⟩)
  · exact List.isPrefixOf_iff_prefix.mpr (List.prefix_refl _)

/-- C2: the signing computation is a deterministic function of the secret
(inside `options`), the parameter mapping and the timestamp source: two runs
whose parameter items hold the identical mapping (any permutation, including
the identical list) produce byte-identical outcomes — the same signed query
string and the same HMAC-SHA256 hex digest, which both live inside the
transmitted URL of the result. -/
theorem signedRequest_deterministic
    (bs : Settings) (options : List (String × String)) (oracle : Nat → Json) (n : Nat)
    (method path : String) (params1 params2 : List (String × String))
    (h : params1.Perm params2) :
    signedRequest bs options oracle n method path params1 =
      signedRequest bs options oracle n method path params2 := by
  have h' : pySorted params1 = pySorted params2 := pySorted_eq_of_perm h
  simp only [signedRequest, h']

theorem signedRequest_deterministic_witness :
    ([("b", "2"), ("a", "1")].Perm [("a", "1"), ("b", "2")]) ∧
    signedRequest ⟨"k", "s", "http://x"⟩ [("apiKey", "k"), ("secret", "s")]
        (fun _ => .obj [("serverTime", .num 1499827319559)]) 0 "GET" "/api/v3/order"
        [("b", "2"), ("a", "1")] =
      signedRequest ⟨"k", "s", "http://x"⟩ [("apiKey", "k"), ("secret", "s")]
        (fun _ => .obj [("serverTime", .num 1499827319559)]) 0 "GET" "/api/v3/order"
        [("a", "1"), ("b", "2")] :=
  ⟨by decide, signedRequest_deterministic _ _ _ _ _ _ _ _ (by decide)⟩

/-- On a list with pairwise-distinct keys, sorting by key alone and sorting
by the full Python tuple order produce the same list. -/
theorem mergeSort_key_eq_pair (l : List (String × String))
    (h : l.Pairwise (fun a b => a.1 ≠ b.1)) :
    (l.mergeSort (fun a b => decide (a.1 ≤ b.1))) = l.mergeSort pairLe := by
  haveI : IsAntisymm (String × String) (fun a b : String × String => a.1 < b.1) :=
    ⟨fun a b h1 h2 => absurd h2 (lt_asymm h1)⟩
  have hsymm : ∀ {x y : String × String}, x.1 ≠ y.1 → y.1 ≠ x.1 :=
    fun hxy => fun he => hxy he.symm
  apply List.eq_of_perm_of_sorted (r := fun a b : String × String => a.1 < b.1)
  · exact (List.mergeSort_perm l _).trans (List.mergeSort_perm l pairLe).symm
  · have hne : (l.mergeSort (fun a b => decide (a.1 ≤ b.1))).Pairwise
        (fun a b => a.1 ≠ b.1) :=
      ((List.mergeSort_perm l _).pairwise_iff hsymm).mpr h
    have hsorted := @List.sorted_mergeSort (String × String)
      (fun a b : String × String => decide (a.1 ≤ b.1))
      (fun a b c h1 h2 =>
        decide_eq_true (le_trans (of_decide_eq_true h1) (of_decide_eq_true h2)))
      (fun a b => by rcases le_total a.1 b.1 with h' | h' <;> simp [h']) l
    exact (hsorted.and hne).imp (fun hab => lt_of_le_of_ne (of_decide_eq_true hab.1) hab.2)
  · have hne : (l.mergeSort pairLe).Pairwise (fun a b => a.1 ≠ b.1) :=
      ((List.mergeSort_perm l pairLe).pairwise_iff hsymm).mpr h
    have hsorted := @List.sorted_mergeSort (String × String) pairLe
      (fun a b c => pairLe_trans a b c) pairLe_total l
    refine (hsorted.and hne).imp (fun hab => ?_)
    rcases (pairLe_iff _ _).mp hab.1 with hlt | ⟨he, _⟩
    · exact hlt
    · exact absurd he hab.2

/-- On a parameter mapping (distinct keys), the transmitted query of the code
equals the formula of the specification. -/
theorem fullQuery_eq_spec (sec : String) (params : List (String × String)) (ts : Int)
    (h : params.Pairwise (fun a b => a.1 ≠ b.1)) :
    fullQuery sec params (.num ts) = specSignedQuery sec params ts := by
  simp only [fullQuery, specSignedQuery, pySorted, mergeSort_key_eq_pair params h]
  rfl

/-- C1: for every parameter mapping, secret and timestamp, `signedRequest`
transmits `endpoint ++ path ++ "?" ++ q` where `q` is exactly the
formula of the specification: the URL-encoding of the parameter pairs sorted by
key, then `&timestamp=<ts>`, then `&signature=<hex>` with `<hex>` the
lowercase HMAC-SHA256 hex digest (secret as key) of precisely the preceding
accumulated string — so the signed bytes equal the transmitted bytes up to
the point where `&signature=` is appended. -/
theorem signedRequest_transmits_spec_query
    (bs : Settings) (options : List (String × String)) (oracle : Nat → Json) (n : Nat)
    (method path : String) (params : List (String × String)) (k sec : String) (ts : Int)
    (hk : optGet options "apiKey" = some k) (hs : optGet options "secret" = some sec)
    (hts : (oracle n).lookup "serverTime" = some (.num ts))
    (hnd : params.Pairwise (fun a b => a.1 ≠ b.1)) :
    (signedRequest bs options oracle n method path params).calls =
      [timeCall bs,
       ⟨method, bs.endpoint ++ path ++ "?" ++ specSignedQuery sec params ts, [],
        [("X-MBX-APIKEY", k)]⟩] := by
  rw [signedRequest_ok bs options oracle n method path params k sec (.num ts) hk hs hts]
  rw [← fullQuery_eq_spec sec params ts hnd]

theorem signedRequest_transmits_spec_query_witness :
    optGet [("apiKey", "ak"), ("secret", "sk")] "apiKey" = some "ak" ∧
    ([("b", "2"), ("a", "1")].Pairwise (fun a b : String × String => a.1 ≠ b.1)) ∧
    (signedRequest ⟨"ak", "sk", "http://x"⟩ [("apiKey", "ak"), ("secret", "sk")]
        (fun _ => .obj [("serverTime", .num 1499827319559)]) 0 "GET" "/api/v3/order"
        [("b", "2"), ("a", "1")]).calls =
      [timeCall ⟨"ak", "sk", "http://x"⟩,
       ⟨"GET", "http://x" ++ "/api/v3/order" ++ "?" ++
          specSignedQuery "sk" [("b", "2"), ("a", "1")] 1499827319559, [],
        [("X-MBX-APIKEY", "ak")]⟩] :=
  ⟨rfl, by decide,
   signedRequest_transmits_spec_query _ _ _ _ _ _ _ _ _ _ rfl rfl rfl (by decide)⟩

/-- Method `balances` issues exactly the HTTP requests of its inner signed request,
whatever the oracle returns. -/
theorem balances_calls_eq (bs : Settings) (options : List (String × String))
    (oracle : Nat → Json) (n : Nat) :
    (balances bs options oracle n).calls =
      (signedRequest bs options oracle n "GET" "/api/v3/account" []).calls := by
  unfold balances
  generalize signedRequest bs options oracle n "GET" "/api/v3/account" [] = r
  rcases r with ⟨res, calls, logs, nx⟩
  rcases res with e | data
  · rfl
  · dsimp only
    split
    · rfl
    · split <;> [skip; rfl]
      split
      · split <;> [rfl; skip]
        split <;> rfl
      · rfl

/-- C8: every signed request starts with its own unsigned fetch of
`/api/v3/time`, the timestamp appended to the query is exactly the value that fetch
returned as `serverTime`, whatever the caller passed in `params`, the request
counter advances past both calls, and a subsequent signed request performs a
new time fetch whose (possibly different) value is the one it appends —
nothing is cached, reused, or caller-supplied. -/
theorem signedRequest_fresh_timestamp
    (bs : Settings) (options : List (String × String)) (oracle : Nat → Json) (n : Nat)
    (method path : String) (params : List (String × String)) (k sec : String) (tsj : Json)
    (hk : optGet options "apiKey" = some k) (hs : optGet options "secret" = some sec)
    (hts : (oracle n).lookup "serverTime" = some tsj) :
    ((signedRequest bs options oracle n method path params).calls.head? =
        some (timeCall bs)) ∧
    ((signedRequest bs options oracle n method path params).calls =
      [timeCall bs,
       ⟨method, bs.endpoint ++ path ++ "?" ++ fullQuery sec params tsj, [],
        [("X-MBX-APIKEY", k)]⟩]) ∧
    ((signedRequest bs options oracle n method path params).next = n + 1 + 1) ∧
    (∀ (method2 path2 : String) (params2 : List (String × String)) (tsj2 : Json),
        (oracle (n + 1 + 1)).lookup "serverTime" = some tsj2 →
        (signedRequest bs options oracle
            ((signedRequest bs options oracle n method path params).next)
            method2 path2 params2).calls =
          [timeCall bs,
           ⟨method2, bs.endpoint ++ path2 ++ "?" ++ fullQuery sec params2 tsj2, [],
            [("X-MBX-APIKEY", k)]⟩]) := by
  rw [signedRequest_ok bs options oracle n method path params k sec tsj hk hs hts]
  refine ⟨rfl, rfl, rfl, ?_⟩
  intro method2 path2 params2 tsj2 hts2
  rw [signedRequest_ok bs options oracle (n + 1 + 1) method2 path2 params2 k sec tsj2
    hk hs hts2]

theorem signedRequest_fresh_timestamp_witness :
    ((fun j : Nat => if j == 0 then Json.obj [("serverTime", .num 100)]
        else Json.obj [("serverTime", .num 102)]) 0).lookup "serverTime" =
        some (.num 100) ∧
    (signedRequest ⟨"ak", "sk", "http://x"⟩ [("apiKey", "ak"), ("secret", "sk")]
        (fun j => if j == 0 then Json.obj [("serverTime", .num 100)]
          else Json.obj [("serverTime", .num 102)]) 0 "GET" "/api/v3/order"
        [("timestamp", "42")]).calls =
      [timeCall ⟨"ak", "sk", "http://x"⟩,
       ⟨"GET", "http://x" ++ "/api/v3/order" ++ "?" ++
          fullQuery "sk" [("timestamp", "42")] (.num 100), [],
        [("X-MBX-APIKEY", "ak")]⟩] ∧
    (signedRequest ⟨"ak", "sk", "http://x"⟩ [("apiKey", "ak"), ("secret", "sk")]
        (fun j => if j == 0 then Json.obj [("serverTime", .num 100)]
          else Json.obj [("serverTime", .num 102)])
        ((signedRequest ⟨"ak", "sk", "http://x"⟩ [("apiKey", "ak"), ("secret", "sk")]
            (fun j => if j == 0 then Json.obj [("serverTime", .num 100)]
              else Json.obj [("serverTime", .num 102)]) 0 "GET" "/api/v3/order"
            [("timestamp", "42")]).next)
        "GET" "/api/v3/order" [("timestamp", "42")]).calls =
      [timeCall ⟨"ak", "sk", "http://x"⟩,
       ⟨"GET", "http://x" ++ "/api/v3/order" ++ "?" ++
          fullQuery "sk" [("timestamp", "42")] (.num 102), [],
        [("X-MBX-APIKEY", "ak")]⟩] := by
  have h := signedRequest_fresh_timestamp ⟨"ak", "sk", "http://x"⟩
    [("apiKey", "ak"), ("secret", "sk")]
    (fun j => if j == 0 then Json.obj [("serverTime", .num 100)]
      else Json.obj [("serverTime", .num 102)])
    0 "GET" "/api/v3/order" [("timestamp", "42")] "ak" "sk" (.num 100) rfl rfl rfl
  exact ⟨rfl, h.2.1, h.2.2.2 "GET" "/api/v3/order" [("timestamp", "42")] (.num 102) rfl⟩

/-- With no parameters, the signed-and-transmitted query is exactly
`"&timestamp=..." ++ "&signature=..."`. -/
theorem fullQuery_nil (sec : String) (tsj : Json) :
    fullQuery sec [] tsj =
      ("&timestamp=" ++ pyFormat tsj) ++ "&signature=" ++
        bytesToHex (hmacSha256 (strToBytes sec)
          (strToBytes ("&timestamp=" ++ pyFormat tsj))) := by
  have h : urlencodePy (pySorted []) ++ "&timestamp=" ++ pyFormat tsj =
      "&timestamp=" ++ pyFormat tsj := by
    have h0 : urlencodePy (pySorted ([] : List (String × String))) = "" := by
      simp [pySorted, urlencodePy, String.intercalate]
    rw [h0, String.empty_append]
  simp only [fullQuery, h]

/-- C9: with an empty parameter mapping (exactly how `balances` invokes it),
the string `signedRequest` signs and transmits begins with the literal
`"&timestamp="` — the leading ampersand is present with no parameter before
it, and it is part of the bytes fed to HMAC-SHA256. -/
theorem signedRequest_empty_params_leading_amp
    (bs : Settings) (options : List (String × String)) (oracle : Nat → Json) (n : Nat)
    (method path : String) (k sec : String) (tsj : Json)
    (hk : optGet options "apiKey" = some k) (hs : optGet options "secret" = some sec)
    (hts : (oracle n).lookup "serverTime" = some tsj) :
    ((signedRequest bs options oracle n method path []).calls =
      [timeCall bs,
       ⟨method,
        bs.endpoint ++ path ++ "?" ++
          (("&timestamp=" ++ pyFormat tsj) ++ "&signature=" ++
            bytesToHex (hmacSha256 (strToBytes sec)
              (strToBytes ("&timestamp=" ++ pyFormat tsj)))), [],
        [("X-MBX-APIKEY", k)]⟩]) ∧
    (("&timestamp=".data).isPrefixOf (("&timestamp=" ++ pyFormat tsj).data) = true) ∧
    ((balances bs options oracle n).calls =
      (signedRequest bs options oracle n "GET" "/api/v3/account" []).calls) := by
  refine ⟨?_, ?_, balances_calls_eq bs options oracle n⟩
  · rw [signedRequest_ok bs options oracle n method path [] k sec tsj hk hs hts,
      ← fullQuery_nil sec tsj]
  · exact List.isPrefixOf_iff_prefix.mpr
      (by rw [String.data_append]; exact List.prefix_append _ _)

theorem signedRequest_empty_params_leading_amp_witness :
    optGet [("apiKey", "ak"), ("secret", "sk")] "secret" = some "sk" ∧
    ((signedRequest ⟨"ak", "sk", "http://x"⟩ [("apiKey", "ak"), ("secret", "sk")]
        (fun _ => .obj [("serverTime", .num 7)]) 0 "GET" "/api/v3/account" []).calls =
      [timeCall ⟨"ak", "sk", "http://x"⟩,
       ⟨"GET",
        "http://x" ++ "/api/v3/account" ++ "?" ++
          (("&timestamp=" ++ pyFormat (.num 7)) ++ "&signature=" ++
            bytesToHex (hmacSha256 (strToBytes "sk")
              (strToBytes ("&timestamp=" ++ pyFormat (.num 7))))), [],
        [("X-MBX-APIKEY", "ak")]⟩]) ∧
    (("&timestamp=".data).isPrefixOf (("&timestamp=" ++ pyFormat (.num 7)).data) = true) ∧
    ((balances ⟨"ak", "sk", "http://x"⟩ [("apiKey", "ak"), ("secret", "sk")]
        (fun _ => .obj [("serverTime", .num 7)]) 0).calls =
      (signedRequest ⟨"ak", "sk", "http://x"⟩ [("apiKey", "ak"), ("secret", "sk")]
        (fun _ => .obj [("serverTime", .num 7)]) 0 "GET" "/api/v3/account" []).calls) :=
  ⟨rfl, signedRequest_empty_params_leading_amp _ _ _ _ _ _ _ _ _ rfl rfl rfl⟩

/-- Running `mapM` over `Except` fails whenever some element fails. -/
theorem mapM_error_of_mem {α β ε : Type} (f : α → Except ε β) (l : List α) (a : α)
    (ha : a ∈ l) (e : ε) (hf : f a = .error e) :
    ∃ e2, l.mapM f = (.error e2 : Except ε (List β)) := by
  induction l with
  | nil => cases ha
  | cons x xs ih =>
    rw [List.mapM_cons]
    rcases List.mem_cons.mp ha with rfl | ha'
    · rw [hf]
      exact ⟨e, rfl⟩
    · rcases hfx : f x with e1 | y
      · exact ⟨e1, rfl⟩
      · rcases ih ha' with ⟨e2, h2⟩
        rw [h2]
        exact ⟨e2, rfl⟩

/-- C5 (amended): when a response body carries a `msg` field, `balances`
raises a `ValueError` whose text contains that message and returns no
mapping, and `request` and `signedRequest` themselves log the message and
hand the parsed body back unchanged without raising; the reshaping endpoints
built on them do not return the body — they go on to reshape the error body
and fail with a shape-dependent exception (proved here for `klines`, which
raises on every `msg`-carrying object body). -/
theorem msg_field_handling :
    (∀ (bs : Settings) (oracle : Nat → Json) (n : Nat) (method path : String)
        (params : List (String × String)) (fields : List (String × Json)) (m : Json),
        oracle n = .obj fields →
        (Json.obj fields).lookup "msg" = some m →
        (request bs oracle n method path params).result = .ok (.obj fields) ∧
        (request bs oracle n method path params).logs = [pyFormat m]) ∧
    (∀ (bs : Settings) (options : List (String × String)) (oracle : Nat → Json) (n : Nat)
        (method path : String) (params : List (String × String)) (k sec : String)
        (tsj : Json) (fields : List (String × Json)) (m : Json),
        optGet options "apiKey" = some k → optGet options "secret" = some sec →
        (oracle n).lookup "serverTime" = some tsj →
        oracle (n + 1) = .obj fields →
        (Json.obj fields).lookup "msg" = some m →
        (signedRequest bs options oracle n method path params).result = .ok (.obj fields) ∧
        (signedRequest bs options oracle n method path params).logs = [pyFormat m]) ∧
    (∀ (bs : Settings) (options : List (String × String)) (oracle : Nat → Json) (n : Nat)
        (k sec : String) (tsj : Json) (fields : List (String × Json)) (m : Json),
        optGet options "apiKey" = some k → optGet options "secret" = some sec →
        (oracle n).lookup "serverTime" = some tsj →
        oracle (n + 1) = .obj fields →
        (Json.obj fields).lookup "msg" = some m →
        (balances bs options oracle n).result =
          .error (.valueError ("Error from exchange: " ++ pyFormat m)) ∧
        substrCheck (pyFormat m) ("Error from exchange: " ++ pyFormat m) = true) ∧
    (∀ (bs : Settings) (oracle : Nat → Json) (n : Nat) (symbol interval : String)
        (kwargs : List (String × String)) (fields : List (String × Json)) (m : Json),
        oracle n = .obj fields →
        (Json.obj fields).lookup "msg" = some m →
        (∃ e, (klines bs oracle n symbol interval kwargs).result = .error e) ∧
        (klines bs oracle n symbol interval kwargs).logs = [pyFormat m]) := by
  refine ⟨?_, ?_, ?_, ?_⟩
  · intro bs oracle n method path params fields m ho hm
    constructor
    · simp [request, ho]
    · simp [request, ho, member_of_lookup fields "msg" m hm, lookupD_of_lookup _ _ _ hm]
  · intro bs options oracle n method path params k sec tsj fields m hk hs hts ho hm
    rw [signedRequest_ok bs options oracle n method path params k sec tsj hk hs hts]
    constructor
    · simp [ho]
    · simp [ho, member_of_lookup fields "msg" m hm, lookupD_of_lookup _ _ _ hm]
  · intro bs options oracle n k sec tsj fields m hk hs hts ho hm
    constructor
    · unfold balances
      rw [signedRequest_ok bs options oracle n "GET" "/api/v3/account" [] k sec tsj hk hs hts]
      simp [ho, member_of_lookup fields "msg" m hm, lookupD_of_lookup _ _ _ hm]
    · exact substrCheck_append_right "Error from exchange: " (pyFormat m)
  · intro bs oracle n symbol interval kwargs fields m ho hm
    have hmem : Json.str "msg" ∈ fields.map (fun p => Json.str p.1) := by
      simp only [Json.lookup, Option.map_eq_some'] at hm
      rcases hm with ⟨p, hp, _⟩
      have hpm : p ∈ fields := List.mem_of_find?_eq_some hp
      have hpk : p.1 = "msg" := by simpa using List.find?_some hp
      exact List.mem_map.mpr ⟨p, hpm, by rw [hpk]⟩
    have hfail : klineOfRow (.str "msg") =
        .error (.indexError "string index out of range") := rfl
    rcases mapM_error_of_mem klineOfRow (fields.map (fun p => Json.str p.1))
      (Json.str "msg") hmem _ hfail with ⟨e2, herr⟩
    have hloop : List.mapM.loop klineOfRow (fields.map (fun p => Json.str p.1)) [] =
        .error e2 := herr
    constructor
    · exact ⟨e2, by simp [klines, request, ho, member_of_lookup fields "msg" m hm,
        lookupD_of_lookup _ _ _ hm, pyIter, hloop]⟩
    · simp [klines, request, ho, member_of_lookup fields "msg" m hm,
        lookupD_of_lookup _ _ _ hm, pyIter, hloop]

theorem msg_field_handling_witness :
    ((fun _ : Nat => Json.obj [("msg", .str "oops")]) 0 = .obj [("msg", .str "oops")]) ∧
    ((request ⟨"ak", "sk", "http://x"⟩ (fun _ => .obj [("msg", .str "oops")]) 0 "GET"
        "/api/v1/depth" [("symbol", "LTCBTC")]).result = .ok (.obj [("msg", .str "oops")]) ∧
     (request ⟨"ak", "sk", "http://x"⟩ (fun _ => .obj [("msg", .str "oops")]) 0 "GET"
        "/api/v1/depth" [("symbol", "LTCBTC")]).logs = [pyFormat (.str "oops")]) ∧
    ((signedRequest ⟨"ak", "sk", "http://x"⟩ [("apiKey", "ak"), ("secret", "sk")]
        (fun j => if j == 0 then Json.obj [("serverTime", .num 7)]
          else Json.obj [("msg", .str "oops")]) 0 "GET" "/api/v3/openOrders"
        [("symbol", "LTCBTC")]).result = .ok (.obj [("msg", .str "oops")]) ∧
     (signedRequest ⟨"ak", "sk", "http://x"⟩ [("apiKey", "ak"), ("secret", "sk")]
        (fun j => if j == 0 then Json.obj [("serverTime", .num 7)]
          else Json.obj [("msg", .str "oops")]) 0 "GET" "/api/v3/openOrders"
        [("symbol", "LTCBTC")]).logs = [pyFormat (.str "oops")]) ∧
    ((balances ⟨"ak", "sk", "http://x"⟩ [("apiKey", "ak"), ("secret", "sk")]
        (fun j => if j == 0 then Json.obj [("serverTime", .num 7)]
          else Json.obj [("msg", .str "oops")]) 0).result =
        .error (.valueError ("Error from exchange: " ++ pyFormat (.str "oops"))) ∧
     substrCheck (pyFormat (.str "oops"))
        ("Error from exchange: " ++ pyFormat (.str "oops")) = true) ∧
    ((∃ e, (klines ⟨"ak", "sk", "http://x"⟩ (fun _ => .obj [("msg", .str "oops")]) 0
        "LTCBTC" "1m" []).result = .error e) ∧
     (klines ⟨"ak", "sk", "http://x"⟩ (fun _ => .obj [("msg", .str "oops")]) 0
        "LTCBTC" "1m" []).logs = [pyFormat (.str "oops")]) :=
  ⟨rfl,
   msg_field_handling.1 ⟨"ak", "sk", "http://x"⟩ (fun _ => .obj [("msg", .str "oops")]) 0
     "GET" "/api/v1/depth" [("symbol", "LTCBTC")] [("msg", .str "oops")] (.str "oops")
     rfl rfl,
   msg_field_handling.2.1 ⟨"ak", "sk", "http://x"⟩ [("apiKey", "ak"), ("secret", "sk")]
     (fun j => if j == 0 then Json.obj [("serverTime", .num 7)]
       else Json.obj [("msg", .str "oops")]) 0 "GET" "/api/v3/openOrders"
     [("symbol", "LTCBTC")] "ak" "sk" (.num 7) [("msg", .str "oops")] (.str "oops")
     rfl rfl rfl rfl rfl,
   msg_field_handling.2.2.1 ⟨"ak", "sk", "http://x"⟩ [("apiKey", "ak"), ("secret", "sk")]
     (fun j => if j == 0 then Json.obj [("serverTime", .num 7)]
       else Json.obj [("msg", .str "oops")]) 0 "ak" "sk" (.num 7)
     [("msg", .str "oops")] (.str "oops") rfl rfl rfl rfl rfl,
   msg_field_handling.2.2.2 ⟨"ak", "sk", "http://x"⟩ (fun _ => .obj [("msg", .str "oops")])
     0 "LTCBTC" "1m" [] [("msg", .str "oops")] (.str "oops") rfl rfl⟩

/-- C5 is false as stated for the endpoints built on `request` and
`signedRequest`: on a body carrying a `msg` field, `klines` logs the message
but then raises `IndexError` while reshaping the error body, instead of
returning the parsed body unchanged to the caller. -/
theorem msg_field_endpoints_counterexample :
    (klines ⟨"ak", "sk", "http://x"⟩ (fun _ => .obj [("msg", .str "oops")]) 0 "LTCBTC"
        "1m" []).result = .error (.indexError "string index out of range") ∧
    ¬ (klines ⟨"ak", "sk", "http://x"⟩ (fun _ => .obj [("msg", .str "oops")]) 0 "LTCBTC"
        "1m" []).result = .ok (.obj [("msg", .str "oops")]) ∧
    (klines ⟨"ak", "sk", "http://x"⟩ (fun _ => .obj [("msg", .str "oops")]) 0 "LTCBTC"
        "1m" []).logs = [pyFormat (.str "oops")] := by
  refine ⟨rfl, fun h => ?_, rfl⟩
  rw [show (klines ⟨"ak", "sk", "http://x"⟩ (fun _ => .obj [("msg", .str "oops")]) 0
      "LTCBTC" "1m" []).result = .error (.indexError "string index out of range")
    from rfl] at h
  exact Except.noConfusion h

/-- Running `mapM` over `Except` succeeds pointwise. -/
theorem mapM_ok {α β ε : Type} (f : α → Except ε β) (g : α → β) (l : List α)
    (h : ∀ a ∈ l, f a = .ok (g a)) : l.mapM f = .ok (l.map g) := by
  induction l with
  | nil => rfl
  | cons x xs ih =>
    rw [List.mapM_cons, h x (List.mem_cons_self x xs),
      ih (fun a ha => h a (List.mem_cons_of_mem x ha))]
    rfl

/-- A nine-element row reshapes successfully, positionally. -/
theorem klineOfRow_ok (r : List Json) (h : r.length = 9) :
    klineOfRow (.arr r) = .ok (mkKline r) := by
  rcases r with _ | ⟨t0, _ | ⟨t1, _ | ⟨t2, _ | ⟨t3, _ | ⟨t4, _ | ⟨t5, _ | ⟨t6, _ |
    ⟨t7, _ | ⟨t8, _ | ⟨t9, r⟩⟩⟩⟩⟩⟩⟩⟩⟩⟩ <;> simp at h
  rfl

/-- A JSON array of arrays has no `"msg"` member. -/
theorem member_arr_of_arrs (rows : List (List Json)) (k : String) :
    (Json.arr (rows.map Json.arr)).member k = false := by
  refine List.any_eq_false.mpr ?_
  intro x hx
  rcases List.mem_map.mp hx with ⟨r, _, rfl⟩
  simp [BEq.beq, beqJson]

/-- C6: on a response array of 9-element rows, `klines` returns an array of
equal length in which row `[t0..t8]` maps positionally to the object
`openTime:t0, open:t1, high:t2, low:t3, close:t4, volume:t5, closeTime:t6,
quoteVolume:t7, numTrades:t8`, preserving array order. -/
theorem klines_positional
    (bs : Settings) (oracle : Nat → Json) (n : Nat) (symbol interval : String)
    (kwargs : List (String × String)) (rows : List (List Json))
    (hresp : oracle n = .arr (rows.map Json.arr))
    (hlen : ∀ r ∈ rows, r.length = 9) :
    klines bs oracle n symbol interval kwargs =
      { result := .ok (.arr (rows.map mkKline))
        calls := [⟨"GET", bs.endpoint ++ "/api/v1/klines",
                   dictUpdate [("symbol", symbol), ("interval", interval)] kwargs, []⟩]
        logs := []
        next := n + 1 } ∧
    (rows.map mkKline).length = rows.length := by
  have hmapM : (rows.map Json.arr).mapM klineOfRow = .ok ((rows.map Json.arr).map mkKlineJ) := by
    refine mapM_ok klineOfRow mkKlineJ (rows.map Json.arr) ?_
    intro a ha
    rcases List.mem_map.mp ha with ⟨r, hr, rfl⟩
    rw [klineOfRow_ok r (hlen r hr)]
    rfl
  have hmm : (rows.map Json.arr).map mkKlineJ = rows.map mkKline := by
    rw [List.map_map]
    rfl
  refine ⟨?_, by simp⟩
  rw [hmm] at hmapM
  have hloop : List.mapM.loop klineOfRow (rows.map Json.arr) [] = .ok (rows.map mkKline) :=
    hmapM
  simp [klines, request, hresp, member_arr_of_arrs, pyIter, hloop]

theorem klines_positional_witness :
    ((fun _ : Nat => Json.arr
        [.arr [.num 1000, .str "1", .str "2", .str "0.5", .str "1.5", .str "10",
               .num 2000, .str "15", .num 3]]) 0 =
      .arr ([[Json.num 1000, .str "1", .str "2", .str "0.5", .str "1.5", .str "10",
              .num 2000, .str "15", .num 3]].map Json.arr)) ∧
    (klines ⟨"ak", "sk", "http://x"⟩
        (fun _ => .arr [.arr [.num 1000, .str "1", .str "2", .str "0.5", .str "1.5",
                              .str "10", .num 2000, .str "15", .num 3]])
        0 "LTCBTC" "1m" [] =
      { result := .ok (.arr [.obj [("openTime", .num 1000), ("open", .str "1"),
          ("high", .str "2"), ("low", .str "0.5"), ("close", .str "1.5"),
          ("volume", .str "10"), ("closeTime", .num 2000), ("quoteVolume", .str "15"),
          ("numTrades", .num 3)]])
        calls := [⟨"GET", "http://x" ++ "/api/v1/klines",
                   dictUpdate [("symbol", "LTCBTC"), ("interval", "1m")] [], []⟩]
        logs := []
        next := 1 } ∧
     ([[Json.num 1000, .str "1", .str "2", .str "0.5", .str "1.5", .str "10",
        .num 2000, .str "15", .num 3]].map mkKline).length =
       [[Json.num 1000, .str "1", .str "2", .str "0.5", .str "1.5", .str "10",
         .num 2000, .str "15", .num 3]].length) :=
  ⟨rfl,
   klines_positional ⟨"ak", "sk", "http://x"⟩
     (fun _ => .arr [.arr [.num 1000, .str "1", .str "2", .str "0.5", .str "1.5",
                           .str "10", .num 2000, .str "15", .num 3]])
     0 "LTCBTC" "1m" []
     [[Json.num 1000, .str "1", .str "2", .str "0.5", .str "1.5", .str "10",
       .num 2000, .str "15", .num 3]]
     rfl
     (fun r hr => by rw [List.mem_singleton] at hr; subst hr; rfl)⟩

/-- Building a dict by comprehension over pairwise-distinct keys keeps every
entry, in order. -/
theorem foldl_jdictSet_append (entries : List (Json × Json)) (acc : List (Json × Json))
    (hdisj : ∀ p ∈ entries, (acc.any (fun q => q.1 == p.1)) = false)
    (hnd : entries.Pairwise (fun p q => (p.1 == q.1) = false)) :
    entries.foldl (fun a p => jdictSet a p.1 p.2) acc = acc ++ entries := by
  induction entries generalizing acc with
  | nil => simp
  | cons p ps ih =>
    rw [List.pairwise_cons] at hnd
    have h1 : jdictSet acc p.1 p.2 = acc ++ [p] := by
      unfold jdictSet
      rw [hdisj p (List.mem_cons_self p ps)]
      simp
    rw [List.foldl_cons, h1, ih _ ?_ hnd.2]
    · simp
    · intro q hq
      rw [List.any_append, hdisj q (List.mem_cons_of_mem p hq)]
      simp [hnd.1 q hq]

/-- Every well-formed balances row extracts its three fields. -/
theorem mapM_balanceOfRow (rs : List (Json × Json × Json)) :
    (rs.map balRowJson).mapM balanceOfRow =
      .ok (rs.map (fun t => (t.1, Json.obj [("free", t.2.1), ("locked", t.2.2)]))) := by
  induction rs with
  | nil => rfl
  | cons t ts ih =>
    rw [List.map_cons, List.mapM_cons,
      show balanceOfRow (balRowJson t) =
        .ok (t.1, Json.obj [("free", t.2.1), ("locked", t.2.2)]) from rfl, ih]
    rfl

/-- C10: if the account response has no error message and no `"balances"`
key, `balances` returns the empty mapping without raising; and on a
well-formed response (rows carrying `asset`, `free`, `locked`, with distinct
assets) the returned mapping holds exactly one entry per row, in order,
keyed by its asset with `free` and `locked` copied verbatim. -/
theorem balances_asset_mapping
    (bs : Settings) (options : List (String × String)) (oracle : Nat → Json) (n : Nat)
    (k sec : String) (tsj : Json) (fields : List (String × Json))
    (hk : optGet options "apiKey" = some k) (hs : optGet options "secret" = some sec)
    (hts : (oracle n).lookup "serverTime" = some tsj)
    (hacct : oracle (n + 1) = .obj fields)
    (hnomsg : (Json.obj fields).member "msg" = false) :
    ((Json.obj fields).lookup "balances" = none →
        (balances bs options oracle n).result = .ok []) ∧
    (∀ rows : List (Json × Json × Json),
        (Json.obj fields).lookup "balances" = some (.arr (rows.map balRowJson)) →
        rows.Pairwise (fun a b => (a.1 == b.1) = false) →
        (balances bs options oracle n).result =
          .ok (rows.map (fun t => (t.1, Json.obj [("free", t.2.1), ("locked", t.2.2)]))) ∧
        (rows.map (fun t => (t.1, Json.obj [("free", t.2.1), ("locked", t.2.2)]))).length
          = rows.length) := by
  constructor
  · intro hnone
    unfold balances
    rw [signedRequest_ok bs options oracle n "GET" "/api/v3/account" [] k sec tsj hk hs hts]
    simp [hacct, hnomsg, hnone]
  · intro rows hbal hnd
    have hloop : List.mapM.loop balanceOfRow (rows.map balRowJson) [] =
        .ok (rows.map (fun t => (t.1, Json.obj [("free", t.2.1), ("locked", t.2.2)]))) :=
      mapM_balanceOfRow rows
    have hfold : (rows.map (fun t => (t.1, Json.obj [("free", t.2.1), ("locked", t.2.2)]))).foldl
        (fun a p => jdictSet a p.1 p.2) [] =
        rows.map (fun t => (t.1, Json.obj [("free", t.2.1), ("locked", t.2.2)])) := by
      rw [foldl_jdictSet_append _ [] (by simp) (List.pairwise_map.mpr hnd)]
      simp
    refine ⟨?_, by simp⟩
    unfold balances
    rw [signedRequest_ok bs options oracle n "GET" "/api/v3/account" [] k sec tsj hk hs hts]
    simp [hacct, hnomsg, hbal, pyIter, hloop, hfold]

theorem balances_asset_mapping_witness :
    ((fun j : Nat => if j == 0 then Json.obj [("serverTime", .num 7)]
        else Json.obj [("balances", .arr
          ([((Json.str "BTC"), (Json.str "1.0"), (Json.str "0.5")),
            ((Json.str "LTC"), (Json.str "2"), (Json.str "0"))].map balRowJson))]) (0 + 1) =
      .obj [("balances", .arr
        ([((Json.str "BTC"), (Json.str "1.0"), (Json.str "0.5")),
          ((Json.str "LTC"), (Json.str "2"), (Json.str "0"))].map balRowJson))]) ∧
    ((balances ⟨"ak", "sk", "http://x"⟩ [("apiKey", "ak"), ("secret", "sk")]
        (fun j => if j == 0 then Json.obj [("serverTime", .num 7)]
          else Json.obj [("balances", .arr
            ([((Json.str "BTC"), (Json.str "1.0"), (Json.str "0.5")),
              ((Json.str "LTC"), (Json.str "2"), (Json.str "0"))].map balRowJson))]) 0).result =
      .ok [((Json.str "BTC"), Json.obj [("free", .str "1.0"), ("locked", .str "0.5")]),
           ((Json.str "LTC"), Json.obj [("free", .str "2"), ("locked", .str "0")])]) ∧
    ((balances ⟨"ak", "sk", "http://x"⟩ [("apiKey", "ak"), ("secret", "sk")]
        (fun j => if j == 0 then Json.obj [("serverTime", .num 7)]
          else Json.obj [("x", .null)]) 0).result = .ok []) := by
  refine ⟨rfl, ?_, ?_⟩
  · have h := (balances_asset_mapping ⟨"ak", "sk", "http://x"⟩
      [("apiKey", "ak"), ("secret", "sk")]
      (fun j => if j == 0 then Json.obj [("serverTime", .num 7)]
        else Json.obj [("balances", .arr
          ([((Json.str "BTC"), (Json.str "1.0"), (Json.str "0.5")),
            ((Json.str "LTC"), (Json.str "2"), (Json.str "0"))].map balRowJson))]) 0
      "ak" "sk" (.num 7) [("balances", .arr
        ([((Json.str "BTC"), (Json.str "1.0"), (Json.str "0.5")),
          ((Json.str "LTC"), (Json.str "2"), (Json.str "0"))].map balRowJson))]
      rfl rfl rfl rfl rfl).2
      [((Json.str "BTC"), (Json.str "1.0"), (Json.str "0.5")),
       ((Json.str "LTC"), (Json.str "2"), (Json.str "0"))] rfl (by decide)
    exact h.1
  · exact (balances_asset_mapping ⟨"ak", "sk", "http://x"⟩
      [("apiKey", "ak"), ("secret", "sk")]
      (fun j => if j == 0 then Json.obj [("serverTime", .num 7)]
        else Json.obj [("x", .null)]) 0
      "ak" "sk" (.num 7) [("x", .null)] rfl rfl rfl rfl rfl).1 rfl

/-- After the in-place replacement for key `k`, `k` is found bound to `v`. -/
theorem find?_replace_same (qs : List (String × String)) (k v : String)
    (hc : qs.any (fun p => p.1 == k) = true) :
    (qs.map (fun p => if p.1 == k then (k, v) else p)).find? (fun p => p.1 == k) =
      some (k, v) := by
  induction qs with
  | nil => simp at hc
  | cons q qs ih =>
    by_cases hq : (q.1 == k) = true
    · rw [List.map_cons, if_pos hq, List.find?_cons_of_pos _ (by simp)]
    · have hqs : qs.any (fun p => p.1 == k) = true := by
        rcases List.any_eq_true.mp hc with ⟨x, hx, hpx⟩
        rcases List.mem_cons.mp hx with rfl | hx'
        · exact absurd hpx hq
        · exact List.any_eq_true.mpr ⟨x, hx', hpx⟩
      rw [List.map_cons, if_neg hq,
        List.find?_cons_of_neg (p := fun x : String × String => x.1 == k) _ hq, ih hqs]

/-- The in-place replacement for key `k` does not affect lookups of `kq ≠ k`. -/
theorem find?_replace_other (qs : List (String × String)) (k kq v : String)
    (hkk : (k == kq) = false) :
    (qs.map (fun p => if p.1 == k then (k, v) else p)).find? (fun p => p.1 == kq) =
      qs.find? (fun p => p.1 == kq) := by
  induction qs with
  | nil => rfl
  | cons q qs ih =>
    by_cases hq : (q.1 == k) = true
    · have hq1 : q.1 = k := by simpa using hq
      rw [List.map_cons, if_pos hq, List.find?_cons_of_neg _ (by simp [hkk]),
        List.find?_cons_of_neg _ (by simp [hq1, show (k == kq) = false from hkk]), ih]
    · rw [List.map_cons, if_neg hq]
      by_cases hqkq : (q.1 == kq) = true
      · rw [List.find?_cons_of_pos (p := fun x : String × String => x.1 == kq) _ hqkq,
          List.find?_cons_of_pos (p := fun x : String × String => x.1 == kq) _ hqkq]
      · rw [List.find?_cons_of_neg (p := fun x : String × String => x.1 == kq) _ hqkq,
          List.find?_cons_of_neg (p := fun x : String × String => x.1 == kq) _ hqkq, ih]

/-- Setting a key makes it readable. -/
theorem optGet_dictSet_same (m : List (String × String)) (k v : String) :
    optGet (dictSet m k v) k = some v := by
  unfold dictSet
  by_cases hc : m.any (fun p => p.1 == k)
  · rw [if_pos hc]
    simp only [optGet]
    rw [find?_replace_same m k v hc]
    rfl
  · rw [if_neg hc]
    have hnone : m.find? (fun p => p.1 == k) = none :=
      List.find?_eq_none.mpr (fun x hx =>
        by simpa using List.any_eq_false.mp (Bool.of_not_eq_true hc) x hx)
    simp [optGet, List.find?_append, hnone]

/-- Setting one key leaves other keys unchanged. -/
theorem optGet_dictSet_other (m : List (String × String)) (k kq v : String)
    (hkk : (k == kq) = false) :
    optGet (dictSet m k v) kq = optGet m kq := by
  unfold dictSet
  by_cases hc : m.any (fun p => p.1 == k)
  · rw [if_pos hc]
    simp only [optGet]
    rw [find?_replace_other m k kq v hkk]
  · rw [if_neg hc]
    have h2 : List.find? (fun p => p.1 == kq) [(k, v)] = none := by
      simp [List.find?, hkk]
    simp [optGet, List.find?_append, h2]

/-- C7 (amended): the credentials live in one class-level store that every
construction overwrites from the settings read at that moment; after any
construction — including one performed for a second client — the store holds
exactly the most recent settings, so repeated construction with unchanged
settings leaves the credentials unchanged, while a construction with
different settings changes them for every existing client. -/
theorem construct_last_write_wins :
    (∀ (s : Settings) (st : ClassState),
        optGet (construct s st).options "apiKey" = some s.key ∧
        optGet (construct s st).options "secret" = some s.secret) ∧
    (∀ (s1 s2 : Settings) (st : ClassState),
        optGet (construct s2 (construct s1 st)).options "apiKey" = some s2.key ∧
        optGet (construct s2 (construct s1 st)).options "secret" = some s2.secret) := by
  have h : ∀ (s : Settings) (st : ClassState),
      optGet (construct s st).options "apiKey" = some s.key ∧
      optGet (construct s st).options "secret" = some s.secret := by
    intro s st
    constructor
    · rw [construct]
      rw [optGet_dictSet_other _ "secret" "apiKey" _ (by decide)]
      exact optGet_dictSet_same _ _ _
    · exact optGet_dictSet_same _ _ _
  exact ⟨h, fun s1 s2 st => h s2 (construct s1 st)⟩

/-- C7 is false as stated: the options dict is a class attribute shared by
all instances, and `__init__` writes it on every construction, so
constructing a second client with different settings changes the credentials
the first client uses. -/
theorem construct_not_immutable_counterexample :
    optGet ((construct ⟨"k1", "s1", "e"⟩ initState).options) "apiKey" = some "k1" ∧
    optGet ((construct ⟨"k2", "s2", "e"⟩ (construct ⟨"k1", "s1", "e"⟩ initState)).options)
        "apiKey" = some "k2" ∧
    (construct ⟨"k2", "s2", "e"⟩ (construct ⟨"k1", "s1", "e"⟩ initState)).options ≠
      (construct ⟨"k1", "s1", "e"⟩ initState).options := by
  exact ⟨rfl, rfl, by decide⟩

end Binance
